import Mathlib

/-!
Shallow embedding of the secure-service layer of cocaine-framework-python:
the files `cocaine/detail/secadaptor.py` and `cocaine/detail/repository.py`.

Conventions of the embedding:
  * Wall-clock time (`time.time()`) is a natural number supplied to each call;
    the two reads of `time.time()` inside one `_get_token` invocation are
    modelled as the same instant (the model treats a fetch as instantaneous).
  * Asynchronous environments (the ticket-service channel, the outcome of
    awaiting `fetch_token`, the behaviour of the wrapped service method) are
    supplied as explicit parameters; the embedded code decides whether and how
    to consult them, which is exactly what the claims are about.
  * Python object identity of cached handles and adaptors is instrumented with
    a freshly allocated numeric id (`hid`, and the `Nat` paired with each
    cached adaptor): the repository hands out a fresh id for every constructed
    instance, so id equality coincides with reference equality.
  * Python `None` is modelled by `Option.none`; a raised exception by an
    `Except.error` or a dedicated result constructor.
-/

namespace CocaineSec

/-- Runtime values passed as arguments of remote calls; `none` models Python
`None` (in particular the initial `_token = None` of the adaptor). -/
abbrev Value := Option String

/-- A network endpoint list, as passed to `Service` and `Locator`. -/
abbrev Endpoints := List (String × Nat)

/-- Modelled from the spec: `LOCATOR_SERVICE_NAME`, the reserved well-known
discovery-service name, is imported from `locator.py`, which is outside the two
embedded source files; the spec only requires it to be a fixed reserved name. -/
def LOCATOR_SERVICE_NAME : String := "locator"

/-- Modelled from the spec: `LOCATOR_DEFAULT_ENDPOINTS`, the built-in default
endpoint list from `locator.py`; its concrete value is irrelevant to every
claim. -/
def LOCATOR_DEFAULT_ENDPOINTS : Endpoints := [("localhost", 10053)]

/-- Python dict lookup, `d[k]` with `k in d`: the first binding for the key
(keys are unique in every dict the embedded code builds). -/
def dictGet (key : String) : List (String × α) → Option α
  | [] => none
  | (k, v) :: kvs => if key = k then some v else dictGet key kvs

/-- Python dict assignment `d[key] = v`: replaces the binding in place when the
key is present, otherwise appends it, preserving insertion order. -/
def dictSet (key : String) (v : α) : List (String × α) → List (String × α)
  | [] => [(key, v)]
  | (k, w) :: kvs => if key = k then (key, v) :: kvs else (k, w) :: dictSet key v kvs

/-- A `Service(name, endpoints)` instance as built by `create_ticket_service`. -/
structure Service where
  name : String
  endpoints : Endpoints
  deriving DecidableEq, Repr

/-- A live service handle cached by `ServiceRepository`: a
`Service(name, locator=...)` instance, or the `Locator` itself.  The field
`hid` instruments Python object identity: the repository allocates a fresh
`hid` for every instance it constructs, so two handles are the same instance
exactly when they are equal. -/
structure Handle where
  hid : Nat
  name : String
  deriving DecidableEq, Repr

/-- `Credentials = namedtuple('Credentials', ['client_id', 'client_secret'])`. -/
structure Credentials where
  client_id : String
  client_secret : String
  deriving DecidableEq, Repr

/-- `_make_token(auth_type, ticket)`: the format string joins the two parts
with a single space. -/
def mkToken (auth_type ticket : String) : String :=
  auth_type ++ " " ++ ticket

/-- The request a provider issues against its ticket service:
`ticket_full(client_id, client_secret, grant_type, {})` for TVM and
`ticket(client_id, client_secret)` for TVM2.  `extra` models the literal empty
dict argument. -/
inductive TicketRequest
  | ticket_full (client_id client_secret grant_type : String)
      (extra : List (String × String))
  | ticket (client_id client_secret : String)
  deriving DecidableEq, Repr

/-- The three token-provider classes (`Promiscuous`, `TVM`, `TVM2`) as a tagged
variant; each protocol variant holds its ticket-service handle and its
credentials, exactly the fields the Python `__init__` stores. -/
inductive SecureProvider
  | Promiscuous
  | TVM (service : Option Service) (credentials : Credentials)
  | TVM2 (service : Option Service) (credentials : Credentials)
  deriving DecidableEq, Repr

/-- `TVM.TYPE`. -/
def TVM.TYPE : String := "TVM"

/-- `TVM2.TYPE`. -/
def TVM2.TYPE : String := "TVM2"

/-- `fetch_token` of each provider class.  `env` is the ticket-service
environment: for a given request it either yields the single value read from
`channel.rx.get()` or raises.  The second component lists the requests the
provider issued (`Promiscuous` issues none and cannot fail). -/
def SecureProvider.fetch_token (p : SecureProvider)
    (env : TicketRequest → Except String String) :
    Except String String × List TicketRequest :=
  match p with
  | SecureProvider.Promiscuous => (Except.ok "", [])
  | SecureProvider.TVM _ creds =>
      let req := TicketRequest.ticket_full creds.client_id creds.client_secret
        "client_credentials" []
      ((env req).map (mkToken TVM.TYPE), [req])
  | SecureProvider.TVM2 _ creds =>
      let req := TicketRequest.ticket creds.client_id creds.client_secret
      ((env req).map (mkToken TVM2.TYPE), [req])

/-- `create_ticket_service(mod, endpoints)`: a `Service` handle named `tvm` or
`tvm2` for the two recognised modes, `None` otherwise. -/
def create_ticket_service (mod : String) (endpoints : Endpoints) : Option Service :=
  if mod = TVM.TYPE then some ⟨"tvm", endpoints⟩
  else if mod = TVM2.TYPE then some ⟨"tvm2", endpoints⟩
  else none

/-- `create_secure_provider(mod, ticket_service, **kwargs)` where the kwargs
are `client_id` and `client_secret` (only consumed by the two protocol
branches). -/
def create_secure_provider (mod : String) (ticket_service : Option Service)
    (client_id client_secret : String) : SecureProvider :=
  if mod = TVM.TYPE then
    SecureProvider.TVM ticket_service ⟨client_id, client_secret⟩
  else if mod = TVM2.TYPE then
    SecureProvider.TVM2 ticket_service ⟨client_id, client_secret⟩
  else SecureProvider.Promiscuous

/-- `SecureServiceError(message)` as raised by `_get_token`. -/
structure SecureServiceError where
  message : String
  deriving DecidableEq, Repr

/-- Outcome of awaiting `self._secure.fetch_token()` inside `_get_token`: the
environment either delivers a token string or raises an exception rendered as
`msg`. -/
inductive FetchOutcome
  | ok (token : String)
  | err (msg : String)
  deriving DecidableEq, Repr

/-- The state of a `SecureServiceAdaptor` object: the wrapped handle, the
provider, the configured expiration interval, and the two mutable fields
`_token` and `_to_expire`. -/
structure SecureServiceAdaptor where
  wrapped : Handle
  secure : SecureProvider
  token_expiration_s : Nat
  token : Option String
  to_expire : Nat
  deriving DecidableEq, Repr

/-- `SecureServiceAdaptor.__init__`: stores its three arguments and sets
`_token = None`, `_to_expire = 0`. -/
def SecureServiceAdaptor.init (wrapped : Handle) (secure : SecureProvider)
    (token_expiration_s : Nat) : SecureServiceAdaptor :=
  ⟨wrapped, secure, token_expiration_s, none, 0⟩

/-- `_get_token` executed at wall-clock time `now`, with `fetch` the outcome
the provider would deliver if consulted.  Returns the value handed back to the
caller (`Except.error` models the raised `SecureServiceError`), the adaptor
state after the call, and whether `fetch_token` was invoked.  When the fetch
raises, the assignments to `_token` and `_to_expire` never execute, so the
state is returned unchanged. -/
def SecureServiceAdaptor.get_token (a : SecureServiceAdaptor) (now : Nat)
    (fetch : FetchOutcome) :
    Except SecureServiceError (Option String) × SecureServiceAdaptor × Bool :=
  if a.to_expire ≤ now then
    match fetch with
    | FetchOutcome.ok tok =>
        (Except.ok (some tok),
         { a with token := some tok, to_expire := now + a.token_expiration_s },
         true)
    | FetchOutcome.err msg =>
        (Except.error ⟨"failed to fetch secure token: " ++ msg⟩, a, true)
  else
    (Except.ok a.token, a, false)

/-- What the wrapped method returns once invoked: a value, or a raised remote
error; the wrapper passes either through unchanged. -/
inductive WrappedOutcome
  | value (v : Value)
  | error (e : String)
  deriving DecidableEq, Repr

/-- What the caller of an intercepted method observes. -/
inductive CallerView
  | tokenError (e : SecureServiceError)
  | fromWrapped (o : WrappedOutcome)
  deriving DecidableEq, Repr

/-- Full record of one intercepted call: the result observed by the caller,
the adaptor state afterwards, the call forwarded to the wrapped handle
(`none` when the wrapped method was never invoked), and whether `fetch_token`
was invoked. -/
structure CallOutcome where
  result : CallerView
  state : SecureServiceAdaptor
  forwarded : Option (String × List Value × List (String × Value))
  fetched : Bool
  deriving Repr

/-- One intercepted method call through the wrapper built by `__getattr__`:
resolve a token via `_get_token` (aborting on its error), set
`kwargs['authorization']` to the resolved token, then invoke the same-named
method of the wrapped handle with the original `args` and the updated `kwargs`
and return its outcome unchanged.  `w` gives the behaviour of the wrapped
handle. -/
def SecureServiceAdaptor.call (a : SecureServiceAdaptor) (now : Nat)
    (fetch : FetchOutcome)
    (w : String → List Value → List (String × Value) → WrappedOutcome)
    (name : String) (args : List Value) (kwargs : List (String × Value)) :
    CallOutcome :=
  match a.get_token now fetch with
  | (Except.error e, a1, b) => ⟨CallerView.tokenError e, a1, none, b⟩
  | (Except.ok tok, a1, b) =>
      let kwargs1 := dictSet "authorization" tok kwargs
      ⟨CallerView.fromWrapped (w name args kwargs1), a1,
       some (name, args, kwargs1), b⟩

/-- The state of a `ServiceRepository`: the locator built at construction, the
memoisation dict `_cache`, and the fresh-id supply instrumenting object
identity of constructed `Service` instances. -/
structure ServiceRepository where
  endpoints : Endpoints
  locator : Handle
  cache : List (String × Handle)
  nextId : Nat
  deriving DecidableEq, Repr

/-- `ServiceRepository.__init__(endpoints)`: builds the locator and an empty
cache.  The locator gets id 0; constructed services get ids from 1 on. -/
def ServiceRepository.init (endpoints : Endpoints) : ServiceRepository :=
  ⟨endpoints, ⟨0, LOCATOR_SERVICE_NAME⟩, [], 1⟩

/-- `create_service(name)`: return the cached handle if present; return the
locator itself for the reserved locator name (without caching it); otherwise
construct a fresh `Service`, cache it and return it.  The third component
instruments whether the `Service` factory ran. -/
def ServiceRepository.create_service (r : ServiceRepository) (name : String) :
    Handle × ServiceRepository × Bool :=
  match dictGet name r.cache with
  | some h => (h, r, false)
  | none =>
      if name = LOCATOR_SERVICE_NAME then
        (r.locator, r, false)
      else
        let h : Handle := ⟨r.nextId, name⟩
        (h, { r with cache := dictSet name h r.cache, nextId := r.nextId + 1 },
         true)

/-- The state of a `SecureServiceRepository`: the inherited plain repository,
`_token_expiration_s`, the provider built once at construction, the dict
`_cache_secured`, and a fresh-id supply instrumenting object identity of
constructed adaptors. -/
structure SecureServiceRepository extends ServiceRepository where
  token_expiration_s : Nat
  secure_provider : SecureProvider
  cache_secured : List (String × Nat × SecureServiceAdaptor)
  nextAid : Nat
  deriving DecidableEq, Repr

/-- `SecureServiceRepository.__init__(endpoints, mod, token_expiration_s,
client_id, client_secret)`: the provider and its ticket service are built once
here, from the configured mode. -/
def SecureServiceRepository.init (endpoints : Endpoints) (mod : String)
    (token_expiration_s : Nat) (client_id client_secret : String) :
    SecureServiceRepository :=
  { toServiceRepository := ServiceRepository.init endpoints
    token_expiration_s := token_expiration_s
    secure_provider :=
      create_secure_provider mod (create_ticket_service mod endpoints)
        client_id client_secret
    cache_secured := []
    nextAid := 0 }

/-- `create_secure_service(name)`: return the cached adaptor if present;
otherwise resolve the plain handle through the inherited `create_service`,
wrap it in a fresh `SecureServiceAdaptor` bound to the shared provider and the
configured interval, cache and return it.  The returned `Nat` is the
instrumented identity of the adaptor instance; the final component records
whether a new adaptor was constructed. -/
def SecureServiceRepository.create_secure_service (r : SecureServiceRepository)
    (name : String) :
    (Nat × SecureServiceAdaptor) × SecureServiceRepository × Bool :=
  match dictGet name r.cache_secured with
  | some ia => (ia, r, false)
  | none =>
      let s := r.toServiceRepository.create_service name
      let ad := SecureServiceAdaptor.init s.1 r.secure_provider
        r.token_expiration_s
      ((r.nextAid, ad),
       { r with toServiceRepository := s.2.1,
                cache_secured := dictSet name (r.nextAid, ad) r.cache_secured,
                nextAid := r.nextAid + 1 },
       true)

/-- A lifetime of `create_service` calls on one repository instance: the final
state together with the log of (name, returned handle, factory ran). -/
def runResolves : ServiceRepository → List String →
    ServiceRepository × List (String × Handle × Bool)
  | r, [] => (r, [])
  | r, n :: ns =>
      let s := r.create_service n
      let rest := runResolves s.2.1 ns
      (rest.1, (n, s.1, s.2.2) :: rest.2)

/-- An operation on a `SecureServiceRepository`: a plain `create_service` or a
`create_secure_service`. -/
inductive SecOp
  | resolve (name : String)
  | resolveSecure (name : String)
  deriving DecidableEq, Repr

/-- Result of one `SecOp`: the returned handle, or the returned adaptor with
its instrumented identity. -/
inductive SecRes
  | handle (h : Handle)
  | adaptor (aid : Nat) (a : SecureServiceAdaptor)
  deriving DecidableEq, Repr

/-- The repository state after one operation. -/
def stepState (r : SecureServiceRepository) : SecOp → SecureServiceRepository
  | SecOp.resolve n =>
      { r with toServiceRepository := (r.toServiceRepository.create_service n).2.1 }
  | SecOp.resolveSecure n => (r.create_secure_service n).2.1

/-- The result returned by one operation. -/
def stepRes (r : SecureServiceRepository) : SecOp → SecRes
  | SecOp.resolve n => SecRes.handle (r.toServiceRepository.create_service n).1
  | SecOp.resolveSecure n =>
      SecRes.adaptor (r.create_secure_service n).1.1 (r.create_secure_service n).1.2

/-- A lifetime of mixed operations on one `SecureServiceRepository` instance:
the final state together with the log of (operation, result). -/
def runSecOps : SecureServiceRepository → List SecOp →
    SecureServiceRepository × List (SecOp × SecRes)
  | r, [] => (r, [])
  | r, op :: ops =>
      let rest := runSecOps (stepState r op) ops
      (rest.1, (op, stepRes r op) :: rest.2)

/-- `Stable r name h`: handle `h` is the fixed answer of the repository `r`
for `name`: either it is cached under `name`, or `name` is the reserved
locator name and `h` is the locator. -/
def Stable (r : ServiceRepository) (name : String) (h : Handle) : Prop :=
  dictGet name r.cache = some h ∨
    (name = LOCATOR_SERVICE_NAME ∧ h = r.locator)

/-- The reserved locator name is never a key of the plain cache. -/
def LocFree (r : ServiceRepository) : Prop :=
    dictGet LOCATOR_SERVICE_NAME r.cache = none

/-- Every cached adaptor wraps a handle that is stable in the underlying plain
repository for the same name. -/
def SWraps (r : SecureServiceRepository) : Prop :=
  ∀ name i a, dictGet name r.cache_secured = some (i, a) →
    Stable r.toServiceRepository name a.wrapped

/-- The reachable-state invariant of a `SecureServiceRepository`. -/
def SInv (r : SecureServiceRepository) : Prop :=
  LocFree r.toServiceRepository ∧ SWraps r

/-! ### Dictionary lemmas -/

theorem dictGet_dictSet_self (k : String) (v : α) (d : List (String × α)) :
    dictGet k (dictSet k v d) = some v := by
  induction d with
  | nil => simp [dictGet, dictSet]
  | cons kv kvs ih =>
      obtain ⟨k1, w⟩ := kv
      by_cases h : k = k1 <;> simp [dictGet, dictSet, h, ih]

theorem dictGet_dictSet_ne (k k2 : String) (v : α) (d : List (String × α))
    (hne : k ≠ k2) : dictGet k (dictSet k2 v d) = dictGet k d := by
  induction d with
  | nil => simp [dictGet, dictSet, hne]
  | cons kv kvs ih =>
      obtain ⟨k1, w⟩ := kv
      by_cases h2 : k2 = k1
      · subst h2
        simp [dictGet, dictSet, hne]
      · by_cases h : k = k1 <;> simp [dictGet, dictSet, h, h2, ih]

theorem dictSet_of_fresh (k : String) (v : α) (d : List (String × α))
    (hfresh : ∀ kv ∈ d, kv.1 ≠ k) : dictSet k v d = d ++ [(k, v)] := by
  induction d with
  | nil => simp [dictSet]
  | cons kv kvs ih =>
      obtain ⟨k1, w⟩ := kv
      have h1 : k1 ≠ k := hfresh (k1, w) (by simp)
      have h2 : k ≠ k1 := fun h => h1 h.symm
      simp [dictSet, h2]
      exact ih fun kv hm => hfresh kv (by simp [hm])

/-! ### ServiceRepository invariants -/

theorem locFree_init (eps : Endpoints) : LocFree (ServiceRepository.init eps) := rfl

/-- The three branches of `create_service`. -/
theorem create_service_cases (r : ServiceRepository) (name : String) :
    (∃ h, dictGet name r.cache = some h ∧ r.create_service name = (h, r, false)) ∨
    (dictGet name r.cache = none ∧ name = LOCATOR_SERVICE_NAME ∧
       r.create_service name = (r.locator, r, false)) ∨
    (dictGet name r.cache = none ∧ name ≠ LOCATOR_SERVICE_NAME ∧
       r.create_service name =
         ((⟨r.nextId, name⟩ : Handle),
          { r with cache := dictSet name ⟨r.nextId, name⟩ r.cache,
                   nextId := r.nextId + 1 }, true)) := by
  by_cases hn : name = LOCATOR_SERVICE_NAME
  · subst hn
    cases hc : dictGet LOCATOR_SERVICE_NAME r.cache with
    | some h =>
        refine Or.inl ⟨h, rfl, ?_⟩
        simp [ServiceRepository.create_service, hc]
    | none =>
        refine Or.inr (Or.inl ⟨rfl, rfl, ?_⟩)
        simp [ServiceRepository.create_service, hc]
  · cases hc : dictGet name r.cache with
    | some h =>
        refine Or.inl ⟨h, rfl, ?_⟩
        simp [ServiceRepository.create_service, hc]
    | none =>
        refine Or.inr (Or.inr ⟨rfl, hn, ?_⟩)
        simp [ServiceRepository.create_service, hc, hn]

/-- With a locator-free cache, a stable handle is exactly what another
`create_service` call returns, with the state unchanged and the factory not
run. -/
theorem create_service_det (r : ServiceRepository) (name : String) (h : Handle)
    (hf : LocFree r) (hs : Stable r name h) :
    r.create_service name = (h, r, false) := by
  have hf' : dictGet LOCATOR_SERVICE_NAME r.cache = none := hf
  cases hs with
  | inl hc => simp [ServiceRepository.create_service, hc]
  | inr hl =>
      obtain ⟨hn, hh⟩ := hl
      subst hn
      subst hh
      simp [ServiceRepository.create_service, hf']

/-- The handle returned by `create_service` is stable in the new state. -/
theorem stable_post (r : ServiceRepository) (name : String) :
    Stable (r.create_service name).2.1 name (r.create_service name).1 := by
  rcases create_service_cases r name with ⟨h, hc, he⟩ | ⟨hc, hn, he⟩ | ⟨hc, hn, he⟩
  · rw [he]; exact Or.inl hc
  · rw [he]; exact Or.inr ⟨hn, rfl⟩
  · rw [he]; exact Or.inl (dictGet_dictSet_self name _ r.cache)

/-- Stability of any name is preserved by any `create_service` call. -/
theorem stable_preserved (r : ServiceRepository) (name m : String) (h : Handle)
    (hs : Stable r name h) : Stable (r.create_service m).2.1 name h := by
  rcases create_service_cases r m with ⟨h0, hc, he⟩ | ⟨hc, hn, he⟩ | ⟨hc, hn, he⟩
  · rw [he]; exact hs
  · rw [he]; exact hs
  · rw [he]
    cases hs with
    | inl hcn =>
        left
        have hne : name ≠ m := by
          intro hnm
          subst hnm
          rw [hc] at hcn
          exact Option.noConfusion hcn
        simpa [dictGet_dictSet_ne name m _ r.cache hne] using hcn
    | inr hl => exact Or.inr ⟨hl.1, hl.2⟩

/-- Locator-freeness is preserved by any `create_service` call. -/
theorem locFree_preserved (r : ServiceRepository) (m : String)
    (hf : LocFree r) : LocFree (r.create_service m).2.1 := by
  rcases create_service_cases r m with ⟨h0, hc, he⟩ | ⟨hc, hn, he⟩ | ⟨hc, hn, he⟩
  · rw [he]; exact hf
  · rw [he]; exact hf
  · rw [he]
    have hne : LOCATOR_SERVICE_NAME ≠ m := fun h => hn h.symm
    show dictGet LOCATOR_SERVICE_NAME (dictSet m _ r.cache) = none
    rw [dictGet_dictSet_ne _ m _ r.cache hne]
    exact hf

/-- Once a handle is stable for a name, every later `create_service` on that
name in a run logs exactly that handle, without running the factory. -/
theorem runResolves_stable (name : String) (h : Handle) (ns : List String) :
    ∀ r : ServiceRepository, LocFree r → Stable r name h →
      ∀ e ∈ (runResolves r ns).2, e.1 = name → e.2.1 = h ∧ e.2.2 = false := by
  induction ns with
  | nil => intro r _ _ e he; simp [runResolves] at he
  | cons n ns ih =>
      intro r hf hs e he hen
      simp only [runResolves, List.mem_cons] at he
      cases he with
      | inl hhead =>
          subst hhead
          have hn : n = name := hen
          subst hn
          rw [create_service_det r n h hf hs]
          exact ⟨rfl, rfl⟩
      | inr htail =>
          exact ih (r.create_service n).2.1 (locFree_preserved r n hf)
            (stable_preserved r name n h hs) e htail hen

/-- Main cache lemma: from any locator-free state, over any lifetime of
`create_service` calls, all logged results for a fixed name agree, and the
factory runs at most once for that name. -/
theorem runResolves_spec (name : String) (ns : List String) :
    ∀ r : ServiceRepository, LocFree r →
      (∀ e1 ∈ (runResolves r ns).2, ∀ e2 ∈ (runResolves r ns).2,
          e1.1 = name → e2.1 = name → e1.2.1 = e2.2.1) ∧
      (runResolves r ns).2.countP (fun e => e.1 == name && e.2.2) ≤ 1 := by
  induction ns with
  | nil => intro r _; simp [runResolves]
  | cons n ns ih =>
      intro r hf
      have hf1 : LocFree (r.create_service n).2.1 := locFree_preserved r n hf
      by_cases hn : n = name
      · subst hn
        have hstab : Stable (r.create_service n).2.1 n (r.create_service n).1 :=
          stable_post r n
        have htail := runResolves_stable n (r.create_service n).1 ns
          (r.create_service n).2.1 hf1 hstab
        constructor
        · intro e1 he1 e2 he2 h1 h2
          simp only [runResolves, List.mem_cons] at he1 he2
          cases he1 with
          | inl h1e =>
              cases he2 with
              | inl h2e => rw [h1e, h2e]
              | inr h2e =>
                  rw [h1e]
                  exact ((htail e2 h2e h2).1).symm
          | inr h1e =>
              cases he2 with
              | inl h2e =>
                  rw [h2e]
                  exact (htail e1 h1e h1).1
              | inr h2e =>
                  rw [(htail e1 h1e h1).1, (htail e2 h2e h2).1]
        · have hzero : (runResolves (r.create_service n).2.1 ns).2.countP
              (fun e => e.1 == n && e.2.2) = 0 := by
            rw [List.countP_eq_zero]
            intro e he
            by_cases hen : e.1 = n
            · have := (htail e he hen).2
              simp [this]
            · simp [hen]
          simp only [runResolves, List.countP_cons, hzero]
          split <;> simp
      · have hne : (n == name) = false := by
          simp [hn]
        obtain ⟨ihagree, ihcount⟩ := ih (r.create_service n).2.1 hf1
        constructor
        · intro e1 he1 e2 he2 h1 h2
          simp only [runResolves, List.mem_cons] at he1 he2
          cases he1 with
          | inl h1e =>
              exfalso
              rw [h1e] at h1
              exact hn h1
          | inr h1e =>
              cases he2 with
              | inl h2e =>
                  exfalso
                  rw [h2e] at h2
                  exact hn h2
              | inr h2e => exact ihagree e1 h1e e2 h2e h1 h2
        · simp only [runResolves, List.countP_cons, hne]
          simpa using ihcount

/-- C3: for every `ServiceCache` instance (any endpoints) and every service
name, including the reserved locator name, any two `resolve(name)` results
over the lifetime of the instance are the identical handle instance, and the
handle factory runs at most once per name. -/
theorem claim_C3 (eps : Endpoints) (ns : List String) (name : String) :
    (∀ e1 ∈ (runResolves (ServiceRepository.init eps) ns).2,
     ∀ e2 ∈ (runResolves (ServiceRepository.init eps) ns).2,
        e1.1 = name → e2.1 = name → e1.2.1 = e2.2.1) ∧
    (runResolves (ServiceRepository.init eps) ns).2.countP
        (fun e => e.1 == name && e.2.2) ≤ 1 :=
  runResolves_spec name ns (ServiceRepository.init eps) (locFree_init eps)

/-- C3, instantiated: a concrete four-call lifetime mixing a plain name with
the reserved locator name. -/
theorem claim_C3_witness :
    (∀ e1 ∈ (runResolves (ServiceRepository.init LOCATOR_DEFAULT_ENDPOINTS)
        ["echo", "locator", "echo", "locator"]).2,
     ∀ e2 ∈ (runResolves (ServiceRepository.init LOCATOR_DEFAULT_ENDPOINTS)
        ["echo", "locator", "echo", "locator"]).2,
        e1.1 = "echo" → e2.1 = "echo" → e1.2.1 = e2.2.1) ∧
    (runResolves (ServiceRepository.init LOCATOR_DEFAULT_ENDPOINTS)
        ["echo", "locator", "echo", "locator"]).2.countP
        (fun e => e.1 == "echo" && e.2.2) ≤ 1 :=
  claim_C3 LOCATOR_DEFAULT_ENDPOINTS ["echo", "locator", "echo", "locator"] "echo"

/-! ### Behaviour of one intercepted call -/

/-- An expired (or never-fetched) token with a successful fetch: the token is
stored, the expiry becomes `now + token_expiration_s`, and the call is
forwarded with the fresh token as `authorization`. -/
theorem call_fetch_ok (a : SecureServiceAdaptor) (now : Nat) (tok : String)
    (w : String → List Value → List (String × Value) → WrappedOutcome)
    (m : String) (args : List Value) (kwargs : List (String × Value))
    (hle : a.to_expire ≤ now) :
    a.call now (FetchOutcome.ok tok) w m args kwargs =
      ⟨CallerView.fromWrapped (w m args (dictSet "authorization" (some tok) kwargs)),
       { a with token := some tok, to_expire := now + a.token_expiration_s },
       some (m, args, dictSet "authorization" (some tok) kwargs), true⟩ := by
  simp [SecureServiceAdaptor.call, SecureServiceAdaptor.get_token, hle]

/-- An expired (or never-fetched) token with a failing fetch: the caller gets
the wrapping `SecureServiceError`, the state is unchanged, and the wrapped
method is never invoked. -/
theorem call_fetch_err (a : SecureServiceAdaptor) (now : Nat) (msg : String)
    (w : String → List Value → List (String × Value) → WrappedOutcome)
    (m : String) (args : List Value) (kwargs : List (String × Value))
    (hle : a.to_expire ≤ now) :
    a.call now (FetchOutcome.err msg) w m args kwargs =
      ⟨CallerView.tokenError ⟨"failed to fetch secure token: " ++ msg⟩,
       a, none, true⟩ := by
  simp [SecureServiceAdaptor.call, SecureServiceAdaptor.get_token, hle]

/-- An unexpired token: no fetch happens (whatever the provider would have
answered), the state is unchanged, and the stored token is attached. -/
theorem call_cached (a : SecureServiceAdaptor) (now : Nat) (f : FetchOutcome)
    (w : String → List Value → List (String × Value) → WrappedOutcome)
    (m : String) (args : List Value) (kwargs : List (String × Value))
    (hgt : now < a.to_expire) :
    a.call now f w m args kwargs =
      ⟨CallerView.fromWrapped (w m args (dictSet "authorization" a.token kwargs)),
       a, some (m, args, dictSet "authorization" a.token kwargs), false⟩ := by
  have hnle : ¬ a.to_expire ≤ now := Nat.not_le.mpr hgt
  simp [SecureServiceAdaptor.call, SecureServiceAdaptor.get_token, hnle]

/-- Whenever the stored expiry has passed, the call invokes `fetch_token`,
regardless of the fetch outcome. -/
theorem call_fetched_of_expired (a : SecureServiceAdaptor) (now : Nat)
    (f : FetchOutcome)
    (w : String → List Value → List (String × Value) → WrappedOutcome)
    (m : String) (args : List Value) (kwargs : List (String × Value))
    (hle : a.to_expire ≤ now) :
    (a.call now f w m args kwargs).fetched = true := by
  cases f with
  | ok tok => rw [call_fetch_ok a now tok w m args kwargs hle]
  | err msg => rw [call_fetch_err a now msg w m args kwargs hle]

/-- C1 as stated is false on the code: with expiration interval 0, a second
intercepted call after a successful first fetch invokes `fetch_token` again.
Concretely, a fresh adaptor with interval 0 is called at time 0 (the fetch
succeeds) and again at time 1: the second call still fetches. -/
theorem claim_C1_counterexample :
    (((SecureServiceAdaptor.init ⟨1, "echo"⟩ SecureProvider.Promiscuous 0).call 0
        (FetchOutcome.ok "t1") (fun _ _ _ => WrappedOutcome.value none)
        "m" [] []).fetched = true) ∧
    (((SecureServiceAdaptor.init ⟨1, "echo"⟩ SecureProvider.Promiscuous 0).call 0
        (FetchOutcome.ok "t1") (fun _ _ _ => WrappedOutcome.value none)
        "m" [] []).result =
      CallerView.fromWrapped (WrappedOutcome.value none)) ∧
    ((((SecureServiceAdaptor.init ⟨1, "echo"⟩ SecureProvider.Promiscuous 0).call 0
        (FetchOutcome.ok "t1") (fun _ _ _ => WrappedOutcome.value none)
        "m" [] []).state.call 1
        (FetchOutcome.ok "t2") (fun _ _ _ => WrappedOutcome.value none)
        "m" [] []).fetched = true) := by
  refine ⟨rfl, rfl, rfl⟩

/-- C1 amended: with expiration interval 0, the stored expiry is set to the
fetch time itself, so the token is treated as immediately expired: every
intercepted call made at or after the stored expiry invokes `fetch_token`
again, and it leaves the expiry at or below the call time, so the refetching
repeats at every later call. -/
theorem claim_C1_amended (a : SecureServiceAdaptor) (now : Nat)
    (f : FetchOutcome)
    (w : String → List Value → List (String × Value) → WrappedOutcome)
    (m : String) (args : List Value) (kwargs : List (String × Value))
    (hT : a.token_expiration_s = 0) (hn : a.to_expire ≤ now) :
    (a.call now f w m args kwargs).fetched = true ∧
    (a.call now f w m args kwargs).state.to_expire ≤ now := by
  cases f with
  | ok tok =>
      rw [call_fetch_ok a now tok w m args kwargs hn]
      simp [hT]
  | err msg =>
      rw [call_fetch_err a now msg w m args kwargs hn]
      exact ⟨rfl, hn⟩

/-- C1 amended, instantiated at a fresh interval-0 adaptor called at time 5. -/
theorem claim_C1_amended_witness :
    ((SecureServiceAdaptor.init ⟨1, "echo"⟩ SecureProvider.Promiscuous 0).call 5
        (FetchOutcome.ok "t") (fun _ _ _ => WrappedOutcome.value none)
        "m" [] []).fetched = true ∧
    ((SecureServiceAdaptor.init ⟨1, "echo"⟩ SecureProvider.Promiscuous 0).call 5
        (FetchOutcome.ok "t") (fun _ _ _ => WrappedOutcome.value none)
        "m" [] []).state.to_expire ≤ 5 :=
  claim_C1_amended (SecureServiceAdaptor.init ⟨1, "echo"⟩ SecureProvider.Promiscuous 0)
    5 (FetchOutcome.ok "t") (fun _ _ _ => WrappedOutcome.value none) "m" [] []
    rfl (Nat.zero_le 5)

/-- C2: when the fetch fails during an intercepted call (the stored expiry has
passed, and the provider raises `msg`), the caller observes the distinguished
`SecureServiceError` wrapping the original cause with token-fetch context, and
the wrapped method is never invoked. -/
theorem claim_C2 (a : SecureServiceAdaptor) (now : Nat) (msg : String)
    (w : String → List Value → List (String × Value) → WrappedOutcome)
    (m : String) (args : List Value) (kwargs : List (String × Value))
    (hexp : a.to_expire ≤ now) :
    (a.call now (FetchOutcome.err msg) w m args kwargs).result =
      CallerView.tokenError ⟨"failed to fetch secure token: " ++ msg⟩ ∧
    (a.call now (FetchOutcome.err msg) w m args kwargs).forwarded = none := by
  rw [call_fetch_err a now msg w m args kwargs hexp]
  exact ⟨rfl, rfl⟩

/-- C2, instantiated at a fresh adaptor whose first fetch fails. -/
theorem claim_C2_witness :
    ((SecureServiceAdaptor.init ⟨1, "echo"⟩ SecureProvider.Promiscuous 10).call 0
        (FetchOutcome.err "boom") (fun _ _ _ => WrappedOutcome.value none)
        "m" [] []).result =
      CallerView.tokenError ⟨"failed to fetch secure token: boom"⟩ ∧
    ((SecureServiceAdaptor.init ⟨1, "echo"⟩ SecureProvider.Promiscuous 10).call 0
        (FetchOutcome.err "boom") (fun _ _ _ => WrappedOutcome.value none)
        "m" [] []).forwarded = none :=
  claim_C2 (SecureServiceAdaptor.init ⟨1, "echo"⟩ SecureProvider.Promiscuous 10)
    0 "boom" (fun _ _ _ => WrappedOutcome.value none) "m" [] [] (Nat.zero_le 0)

/-- C7: a failed refresh after an earlier successful fetch (some token is
stored) leaves the whole adaptor state, in particular the stored token and
expiry, unchanged; the retained token is available at the next attempt. -/
theorem claim_C7 (a : SecureServiceAdaptor) (now : Nat) (msg : String)
    (w : String → List Value → List (String × Value) → WrappedOutcome)
    (m : String) (args : List Value) (kwargs : List (String × Value))
    (t : String) (hprev : a.token = some t) (hexp : a.to_expire ≤ now) :
    (a.call now (FetchOutcome.err msg) w m args kwargs).state = a := by
  rw [call_fetch_err a now msg w m args kwargs hexp]

/-- C7, instantiated at an adaptor holding a previously fetched token whose
refresh at time 7 fails. -/
theorem claim_C7_witness :
    ((⟨⟨1, "echo"⟩, SecureProvider.Promiscuous, 5, some "old", 6⟩ :
        SecureServiceAdaptor).call 7 (FetchOutcome.err "down")
        (fun _ _ _ => WrappedOutcome.value none) "m" [] []).state =
      ⟨⟨1, "echo"⟩, SecureProvider.Promiscuous, 5, some "old", 6⟩ :=
  claim_C7 ⟨⟨1, "echo"⟩, SecureProvider.Promiscuous, 5, some "old", 6⟩ 7 "down"
    (fun _ _ _ => WrappedOutcome.value none) "m" [] [] "old" rfl (by decide)

/-- C4: with interval `T ≥ 1`, a call at `t0` on an adaptor whose token is
unset or expired fetches and stores expiry `t0 + T`; a call at `t0 + T - 1`
reuses the stored token without fetching (whatever the provider would answer);
a call at `t0 + T + 1` triggers exactly one new fetch; and a fresh adaptor
(stored expiry 0) fetches on its first call at any time, with any outcome. -/
theorem claim_C4 (a : SecureServiceAdaptor) (T t0 : Nat) (tok : String)
    (f2 f3 : FetchOutcome)
    (w : String → List Value → List (String × Value) → WrappedOutcome)
    (m1 m2 m3 : String) (args1 args2 args3 : List Value)
    (kw1 kw2 kw3 : List (String × Value))
    (w0 : Handle) (p0 : SecureProvider) (T0 now0 : Nat) (f0 : FetchOutcome)
    (hT : 1 ≤ T) (haT : a.token_expiration_s = T) (hexp : a.to_expire ≤ t0) :
    (a.call t0 (FetchOutcome.ok tok) w m1 args1 kw1).fetched = true ∧
    (a.call t0 (FetchOutcome.ok tok) w m1 args1 kw1).state.token = some tok ∧
    (a.call t0 (FetchOutcome.ok tok) w m1 args1 kw1).state.to_expire = t0 + T ∧
    ((a.call t0 (FetchOutcome.ok tok) w m1 args1 kw1).state.call (t0 + T - 1)
        f2 w m2 args2 kw2).fetched = false ∧
    ((a.call t0 (FetchOutcome.ok tok) w m1 args1 kw1).state.call (t0 + T - 1)
        f2 w m2 args2 kw2).state =
      (a.call t0 (FetchOutcome.ok tok) w m1 args1 kw1).state ∧
    ((a.call t0 (FetchOutcome.ok tok) w m1 args1 kw1).state.call (t0 + T - 1)
        f2 w m2 args2 kw2).forwarded =
      some (m2, args2, dictSet "authorization" (some tok) kw2) ∧
    (((a.call t0 (FetchOutcome.ok tok) w m1 args1 kw1).state.call (t0 + T - 1)
        f2 w m2 args2 kw2).state.call (t0 + T + 1) f3 w m3 args3 kw3).fetched
      = true ∧
    ((SecureServiceAdaptor.init w0 p0 T0).call now0 f0 w m1 args1 kw1).fetched
      = true := by
  have e1 : a.call t0 (FetchOutcome.ok tok) w m1 args1 kw1 =
      ⟨CallerView.fromWrapped (w m1 args1 (dictSet "authorization" (some tok) kw1)),
       { a with token := some tok, to_expire := t0 + T },
       some (m1, args1, dictSet "authorization" (some tok) kw1), true⟩ := by
    rw [call_fetch_ok a t0 tok w m1 args1 kw1 hexp, haT]
  have hlt : t0 + T - 1 <
      ({ a with token := some tok, to_expire := t0 + T } :
        SecureServiceAdaptor).to_expire := by
    show t0 + T - 1 < t0 + T
    omega
  have e2 : ({ a with token := some tok, to_expire := t0 + T } :
        SecureServiceAdaptor).call (t0 + T - 1) f2 w m2 args2 kw2 =
      ⟨CallerView.fromWrapped (w m2 args2 (dictSet "authorization" (some tok) kw2)),
       { a with token := some tok, to_expire := t0 + T },
       some (m2, args2, dictSet "authorization" (some tok) kw2), false⟩ := by
    rw [call_cached _ _ f2 w m2 args2 kw2 hlt]
  have hle3 : ({ a with token := some tok, to_expire := t0 + T } :
        SecureServiceAdaptor).to_expire ≤ t0 + T + 1 := by
    show t0 + T ≤ t0 + T + 1
    omega
  have e3 := call_fetched_of_expired
    ({ a with token := some tok, to_expire := t0 + T }) (t0 + T + 1)
    f3 w m3 args3 kw3 hle3
  have e0 := call_fetched_of_expired (SecureServiceAdaptor.init w0 p0 T0) now0
    f0 w m1 args1 kw1 (Nat.zero_le now0)
  rw [e1]
  refine ⟨rfl, rfl, rfl, ?_, ?_, ?_, ?_, e0⟩
  · rw [show (⟨CallerView.fromWrapped (w m1 args1 (dictSet "authorization" (some tok) kw1)),
        { a with token := some tok, to_expire := t0 + T },
        some (m1, args1, dictSet "authorization" (some tok) kw1), true⟩ :
          CallOutcome).state =
        { a with token := some tok, to_expire := t0 + T } from rfl, e2]
  · rw [show (⟨CallerView.fromWrapped (w m1 args1 (dictSet "authorization" (some tok) kw1)),
        { a with token := some tok, to_expire := t0 + T },
        some (m1, args1, dictSet "authorization" (some tok) kw1), true⟩ :
          CallOutcome).state =
        { a with token := some tok, to_expire := t0 + T } from rfl, e2]
  · rw [show (⟨CallerView.fromWrapped (w m1 args1 (dictSet "authorization" (some tok) kw1)),
        { a with token := some tok, to_expire := t0 + T },
        some (m1, args1, dictSet "authorization" (some tok) kw1), true⟩ :
          CallOutcome).state =
        { a with token := some tok, to_expire := t0 + T } from rfl, e2]
  · rw [show (⟨CallerView.fromWrapped (w m1 args1 (dictSet "authorization" (some tok) kw1)),
        { a with token := some tok, to_expire := t0 + T },
        some (m1, args1, dictSet "authorization" (some tok) kw1), true⟩ :
          CallOutcome).state =
        { a with token := some tok, to_expire := t0 + T } from rfl, e2]
    exact e3

/-- C4, instantiated: `T = 10`, first call at time 100 with token `tk`, reuse
at time 109, refetch at time 111, and a fresh-adaptor first call at time 3. -/
theorem claim_C4_witness :
    ((SecureServiceAdaptor.init ⟨1, "echo"⟩ SecureProvider.Promiscuous 10).call
        100 (FetchOutcome.ok "tk") (fun _ _ _ => WrappedOutcome.value none)
        "m" [] []).fetched = true ∧
    ((SecureServiceAdaptor.init ⟨1, "echo"⟩ SecureProvider.Promiscuous 10).call
        100 (FetchOutcome.ok "tk") (fun _ _ _ => WrappedOutcome.value none)
        "m" [] []).state.token = some "tk" ∧
    ((SecureServiceAdaptor.init ⟨1, "echo"⟩ SecureProvider.Promiscuous 10).call
        100 (FetchOutcome.ok "tk") (fun _ _ _ => WrappedOutcome.value none)
        "m" [] []).state.to_expire = 100 + 10 ∧
    (((SecureServiceAdaptor.init ⟨1, "echo"⟩ SecureProvider.Promiscuous 10).call
        100 (FetchOutcome.ok "tk") (fun _ _ _ => WrappedOutcome.value none)
        "m" [] []).state.call (100 + 10 - 1) (FetchOutcome.ok "other")
        (fun _ _ _ => WrappedOutcome.value none) "m" [] []).fetched = false ∧
    (((SecureServiceAdaptor.init ⟨1, "echo"⟩ SecureProvider.Promiscuous 10).call
        100 (FetchOutcome.ok "tk") (fun _ _ _ => WrappedOutcome.value none)
        "m" [] []).state.call (100 + 10 - 1) (FetchOutcome.ok "other")
        (fun _ _ _ => WrappedOutcome.value none) "m" [] []).state =
      ((SecureServiceAdaptor.init ⟨1, "echo"⟩ SecureProvider.Promiscuous 10).call
        100 (FetchOutcome.ok "tk") (fun _ _ _ => WrappedOutcome.value none)
        "m" [] []).state ∧
    (((SecureServiceAdaptor.init ⟨1, "echo"⟩ SecureProvider.Promiscuous 10).call
        100 (FetchOutcome.ok "tk") (fun _ _ _ => WrappedOutcome.value none)
        "m" [] []).state.call (100 + 10 - 1) (FetchOutcome.ok "other")
        (fun _ _ _ => WrappedOutcome.value none) "m" [] []).forwarded =
      some ("m", [], dictSet "authorization" (some "tk") []) ∧
    ((((SecureServiceAdaptor.init ⟨1, "echo"⟩ SecureProvider.Promiscuous 10).call
        100 (FetchOutcome.ok "tk") (fun _ _ _ => WrappedOutcome.value none)
        "m" [] []).state.call (100 + 10 - 1) (FetchOutcome.ok "other")
        (fun _ _ _ => WrappedOutcome.value none) "m" [] []).state.call
        (100 + 10 + 1) (FetchOutcome.ok "fresh")
        (fun _ _ _ => WrappedOutcome.value none) "m" [] []).fetched = true ∧
    ((SecureServiceAdaptor.init ⟨2, "other"⟩ SecureProvider.Promiscuous 0).call 3
        (FetchOutcome.err "x") (fun _ _ _ => WrappedOutcome.value none)
        "m" [] []).fetched = true :=
  claim_C4 (SecureServiceAdaptor.init ⟨1, "echo"⟩ SecureProvider.Promiscuous 10)
    10 100 "tk" (FetchOutcome.ok "other") (FetchOutcome.ok "fresh")
    (fun _ _ _ => WrappedOutcome.value none) "m" "m" "m" [] [] [] [] [] []
    ⟨2, "other"⟩ SecureProvider.Promiscuous 0 3 (FetchOutcome.err "x")
    (by decide) rfl (Nat.zero_le 100)

/-- C5: when token resolution succeeds (the token was unexpired, or the fetch
delivers a token) and the caller did not itself pass an `authorization`
keyword, the forwarded call is the same-named method with the positional and
keyword arguments unchanged plus exactly one appended keyword binding
`authorization` to the adaptor token current after resolution, and the wrapped
method outcome is returned unchanged. -/
theorem claim_C5 (a : SecureServiceAdaptor) (now : Nat) (f : FetchOutcome)
    (w : String → List Value → List (String × Value) → WrappedOutcome)
    (m : String) (args : List Value) (kwargs : List (String × Value))
    (hk : ∀ kv ∈ kwargs, kv.1 ≠ "authorization")
    (hs : now < a.to_expire ∨ ∃ t, f = FetchOutcome.ok t) :
    (a.call now f w m args kwargs).forwarded =
      some (m, args,
        kwargs ++ [("authorization", (a.call now f w m args kwargs).state.token)]) ∧
    (a.call now f w m args kwargs).result =
      CallerView.fromWrapped (w m args
        (kwargs ++ [("authorization", (a.call now f w m args kwargs).state.token)])) := by
  have happ : ∀ tv : Value, dictSet "authorization" tv kwargs =
      kwargs ++ [("authorization", tv)] :=
    fun tv => dictSet_of_fresh "authorization" tv kwargs hk
  by_cases hle : a.to_expire ≤ now
  · obtain ⟨t, rfl⟩ : ∃ t, f = FetchOutcome.ok t := by
      cases hs with
      | inl hlt => exact absurd hle (Nat.not_le.mpr hlt)
      | inr hok => exact hok
    rw [call_fetch_ok a now t w m args kwargs hle]
    have : dictSet "authorization" (some t) kwargs =
        kwargs ++ [("authorization", some t)] := happ (some t)
    rw [this]
    exact ⟨rfl, rfl⟩
  · have hlt : now < a.to_expire := Nat.not_le.mp hle
    rw [call_cached a now f w m args kwargs hlt]
    have : dictSet "authorization" a.token kwargs =
        kwargs ++ [("authorization", a.token)] := happ a.token
    rw [this]
    exact ⟨rfl, rfl⟩

/-- C5, instantiated: a call `m(a1, x=1)` at time 0 whose fetch yields `tk` is
forwarded as `m(a1, x=1, authorization=tk)`. -/
theorem claim_C5_witness :
    ((SecureServiceAdaptor.init ⟨1, "echo"⟩ SecureProvider.Promiscuous 10).call 0
        (FetchOutcome.ok "tk") (fun _ _ kw => WrappedOutcome.value (dictGet "x" kw).join)
        "m" [some "a1"] [("x", some "1")]).forwarded =
      some ("m", [some "a1"],
        [("x", some "1")] ++ [("authorization",
          ((SecureServiceAdaptor.init ⟨1, "echo"⟩ SecureProvider.Promiscuous 10).call 0
            (FetchOutcome.ok "tk")
            (fun _ _ kw => WrappedOutcome.value (dictGet "x" kw).join)
            "m" [some "a1"] [("x", some "1")]).state.token)]) ∧
    ((SecureServiceAdaptor.init ⟨1, "echo"⟩ SecureProvider.Promiscuous 10).call 0
        (FetchOutcome.ok "tk") (fun _ _ kw => WrappedOutcome.value (dictGet "x" kw).join)
        "m" [some "a1"] [("x", some "1")]).result =
      CallerView.fromWrapped ((fun _ _ kw => WrappedOutcome.value (dictGet "x" kw).join)
        "m" ([some "a1"] : List Value)
        ([("x", some "1")] ++ [("authorization",
          ((SecureServiceAdaptor.init ⟨1, "echo"⟩ SecureProvider.Promiscuous 10).call 0
            (FetchOutcome.ok "tk")
            (fun _ _ kw => WrappedOutcome.value (dictGet "x" kw).join)
            "m" [some "a1"] [("x", some "1")]).state.token)])) :=
  claim_C5 (SecureServiceAdaptor.init ⟨1, "echo"⟩ SecureProvider.Promiscuous 10) 0
    (FetchOutcome.ok "tk") (fun _ _ kw => WrappedOutcome.value (dictGet "x" kw).join)
    "m" [some "a1"] [("x", some "1")] (by decide)
    (Or.inr ⟨"tk", rfl⟩)

/-- C10: when the caller itself passes an `authorization` keyword and token
resolution succeeds, the adaptor silently overwrites that binding with its own
current token before forwarding: the forwarded dict binds `authorization` to
the adaptor token, so the caller-supplied value is delivered only if it
happens to equal that token, never otherwise; no error is raised. -/
theorem claim_C10 (a : SecureServiceAdaptor) (now : Nat) (f : FetchOutcome)
    (w : String → List Value → List (String × Value) → WrappedOutcome)
    (m : String) (args : List Value) (kwargs : List (String × Value)) (v : Value)
    (hmem : dictGet "authorization" kwargs = some v)
    (hs : now < a.to_expire ∨ ∃ t, f = FetchOutcome.ok t) :
    (a.call now f w m args kwargs).forwarded =
      some (m, args,
        dictSet "authorization" ((a.call now f w m args kwargs).state.token) kwargs) ∧
    dictGet "authorization"
        (dictSet "authorization" ((a.call now f w m args kwargs).state.token) kwargs) =
      some ((a.call now f w m args kwargs).state.token) ∧
    ((a.call now f w m args kwargs).state.token ≠ v →
      dictGet "authorization"
          (dictSet "authorization" ((a.call now f w m args kwargs).state.token) kwargs) ≠
        some v) ∧
    (∃ o, (a.call now f w m args kwargs).result = CallerView.fromWrapped o) := by
  have hget := dictGet_dictSet_self "authorization"
    ((a.call now f w m args kwargs).state.token) kwargs
  refine ⟨?_, hget, ?_, ?_⟩
  · by_cases hle : a.to_expire ≤ now
    · obtain ⟨t, rfl⟩ : ∃ t, f = FetchOutcome.ok t := by
        cases hs with
        | inl hlt => exact absurd hle (Nat.not_le.mpr hlt)
        | inr hok => exact hok
      rw [call_fetch_ok a now t w m args kwargs hle]
    · have hlt : now < a.to_expire := Nat.not_le.mp hle
      rw [call_cached a now f w m args kwargs hlt]
  · intro hne hc
    rw [hget] at hc
    exact hne (Option.some.injEq _ _ ▸ hc)
  · by_cases hle : a.to_expire ≤ now
    · obtain ⟨t, rfl⟩ : ∃ t, f = FetchOutcome.ok t := by
        cases hs with
        | inl hlt => exact absurd hle (Nat.not_le.mpr hlt)
        | inr hok => exact hok
      rw [call_fetch_ok a now t w m args kwargs hle]
      exact ⟨_, rfl⟩
    · have hlt : now < a.to_expire := Nat.not_le.mp hle
      rw [call_cached a now f w m args kwargs hlt]
      exact ⟨_, rfl⟩

/-- C10, instantiated: the caller passes `authorization="mine"`; the forwarded
call carries the adaptor token `tk` instead. -/
theorem claim_C10_witness :
    ((SecureServiceAdaptor.init ⟨1, "echo"⟩ SecureProvider.Promiscuous 10).call 0
        (FetchOutcome.ok "tk") (fun _ _ _ => WrappedOutcome.value none)
        "m" [] [("authorization", some "mine")]).forwarded =
      some ("m", [],
        dictSet "authorization"
          (((SecureServiceAdaptor.init ⟨1, "echo"⟩ SecureProvider.Promiscuous 10).call 0
            (FetchOutcome.ok "tk") (fun _ _ _ => WrappedOutcome.value none)
            "m" [] [("authorization", some "mine")]).state.token)
          [("authorization", some "mine")]) ∧
    dictGet "authorization"
        (dictSet "authorization"
          (((SecureServiceAdaptor.init ⟨1, "echo"⟩ SecureProvider.Promiscuous 10).call 0
            (FetchOutcome.ok "tk") (fun _ _ _ => WrappedOutcome.value none)
            "m" [] [("authorization", some "mine")]).state.token)
          [("authorization", some "mine")]) =
      some (((SecureServiceAdaptor.init ⟨1, "echo"⟩ SecureProvider.Promiscuous 10).call 0
            (FetchOutcome.ok "tk") (fun _ _ _ => WrappedOutcome.value none)
            "m" [] [("authorization", some "mine")]).state.token) ∧
    ((((SecureServiceAdaptor.init ⟨1, "echo"⟩ SecureProvider.Promiscuous 10).call 0
        (FetchOutcome.ok "tk") (fun _ _ _ => WrappedOutcome.value none)
        "m" [] [("authorization", some "mine")]).state.token ≠ some "mine") →
      dictGet "authorization"
          (dictSet "authorization"
            (((SecureServiceAdaptor.init ⟨1, "echo"⟩ SecureProvider.Promiscuous 10).call 0
              (FetchOutcome.ok "tk") (fun _ _ _ => WrappedOutcome.value none)
              "m" [] [("authorization", some "mine")]).state.token)
            [("authorization", some "mine")]) ≠
        some (some "mine")) ∧
    (∃ o, ((SecureServiceAdaptor.init ⟨1, "echo"⟩ SecureProvider.Promiscuous 10).call 0
        (FetchOutcome.ok "tk") (fun _ _ _ => WrappedOutcome.value none)
        "m" [] [("authorization", some "mine")]).result = CallerView.fromWrapped o) :=
  claim_C10 (SecureServiceAdaptor.init ⟨1, "echo"⟩ SecureProvider.Promiscuous 10) 0
    (FetchOutcome.ok "tk") (fun _ _ _ => WrappedOutcome.value none)
    "m" [] [("authorization", some "mine")] (some "mine") rfl
    (Or.inr ⟨"tk", rfl⟩)

/-- C8: when the ticket service answers `ticket_full(client_id, client_secret,
"client_credentials", {})` with `tA`, the TVM provider yields the token
`"TVM " ++ tA`; when it answers `ticket(client_id, client_secret)` with `tB`,
the TVM2 provider yields `"TVM2 " ++ tB`; the Promiscuous provider always
yields the empty token. -/
theorem claim_C8 (s : Option Service) (creds : Credentials) (tA tB : String)
    (envA envB : TicketRequest → Except String String)
    (hA : envA (TicketRequest.ticket_full creds.client_id creds.client_secret
        "client_credentials" []) = Except.ok tA)
    (hB : envB (TicketRequest.ticket creds.client_id creds.client_secret) =
        Except.ok tB) :
    ((SecureProvider.TVM s creds).fetch_token envA).1 =
      Except.ok ("TVM " ++ tA) ∧
    ((SecureProvider.TVM2 s creds).fetch_token envB).1 =
      Except.ok ("TVM2 " ++ tB) ∧
    (∀ env, (SecureProvider.Promiscuous.fetch_token env).1 = Except.ok "") := by
  refine ⟨?_, ?_, fun env => rfl⟩
  · show ((envA _).map (mkToken TVM.TYPE)) = _
    rw [hA]
    rfl
  · show ((envB _).map (mkToken TVM2.TYPE)) = _
    rw [hB]
    rfl

/-- C8, instantiated at the spec scenarios: ticket `abc` gives `TVM abc`,
ticket `xyz` gives `TVM2 xyz`, and Promiscuous gives the empty string. -/
theorem claim_C8_witness :
    ((SecureProvider.TVM none ⟨"id", "secret"⟩).fetch_token
        (fun _ => Except.ok "abc")).1 = Except.ok "TVM abc" ∧
    ((SecureProvider.TVM2 none ⟨"id", "secret"⟩).fetch_token
        (fun _ => Except.ok "xyz")).1 = Except.ok "TVM2 xyz" ∧
    (∀ env, (SecureProvider.Promiscuous.fetch_token env).1 = Except.ok "") :=
  claim_C8 none ⟨"id", "secret"⟩ "abc" "xyz"
    (fun _ => Except.ok "abc") (fun _ => Except.ok "xyz") rfl rfl

/-- C9: for any mode string other than the two recognised type tags,
construction does not error: no ticket-service handle is built, the selection
function returns the Promiscuous provider, and every fetch of that provider
returns the empty token while issuing no ticket-service request at all. -/
theorem claim_C9 (mod : String) (endpoints : Endpoints)
    (client_id client_secret : String)
    (hA : mod ≠ TVM.TYPE) (hB : mod ≠ TVM2.TYPE) :
    create_ticket_service mod endpoints = none ∧
    create_secure_provider mod (create_ticket_service mod endpoints)
        client_id client_secret = SecureProvider.Promiscuous ∧
    (∀ env, SecureProvider.Promiscuous.fetch_token env = (Except.ok "", [])) := by
  refine ⟨?_, ?_, fun env => rfl⟩
  · simp [create_ticket_service, hA, hB]
  · simp [create_secure_provider, hA, hB]

/-- C9, instantiated at the spec scenario `mode = "bogus"`. -/
theorem claim_C9_witness :
    create_ticket_service "bogus" LOCATOR_DEFAULT_ENDPOINTS = none ∧
    create_secure_provider "bogus"
        (create_ticket_service "bogus" LOCATOR_DEFAULT_ENDPOINTS)
        "id" "secret" = SecureProvider.Promiscuous ∧
    (∀ env, SecureProvider.Promiscuous.fetch_token env = (Except.ok "", [])) :=
  claim_C9 "bogus" LOCATOR_DEFAULT_ENDPOINTS "id" "secret"
    (by decide) (by decide)

/-! ### SecureServiceRepository invariants -/

/-- The two branches of `create_secure_service`. -/
theorem secure_cases (r : SecureServiceRepository) (name : String) :
    (∃ ia, dictGet name r.cache_secured = some ia ∧
       r.create_secure_service name = (ia, r, false)) ∨
    (dictGet name r.cache_secured = none ∧
       r.create_secure_service name =
         ((r.nextAid, SecureServiceAdaptor.init
             (r.toServiceRepository.create_service name).1
             r.secure_provider r.token_expiration_s),
          { r with
              toServiceRepository := (r.toServiceRepository.create_service name).2.1,
              cache_secured := dictSet name
                (r.nextAid, SecureServiceAdaptor.init
                  (r.toServiceRepository.create_service name).1
                  r.secure_provider r.token_expiration_s) r.cache_secured,
              nextAid := r.nextAid + 1 },
          true)) := by
  cases hc : dictGet name r.cache_secured with
  | some ia =>
      refine Or.inl ⟨ia, rfl, ?_⟩
      simp [SecureServiceRepository.create_secure_service, hc]
  | none =>
      refine Or.inr ⟨rfl, ?_⟩
      simp [SecureServiceRepository.create_secure_service, hc]

/-- A cached adaptor is exactly what another `create_secure_service` call
returns, with the state unchanged and no new adaptor constructed. -/
theorem secure_det (r : SecureServiceRepository) (name : String)
    (ia : Nat × SecureServiceAdaptor)
    (hc : dictGet name r.cache_secured = some ia) :
    r.create_secure_service name = (ia, r, false) := by
  simp [SecureServiceRepository.create_secure_service, hc]

/-- After `create_secure_service`, the returned adaptor is cached under the
name. -/
theorem secure_post (r : SecureServiceRepository) (name : String) :
    dictGet name (r.create_secure_service name).2.1.cache_secured =
      some (r.create_secure_service name).1 := by
  rcases secure_cases r name with ⟨ia, hc, he⟩ | ⟨hc, he⟩
  · rw [he]; exact hc
  · rw [he]; exact dictGet_dictSet_self name _ r.cache_secured

/-- One step preserves locator-freeness of the plain cache. -/
theorem stepState_locFree (r : SecureServiceRepository) (op : SecOp)
    (hf : LocFree r.toServiceRepository) :
    LocFree (stepState r op).toServiceRepository := by
  cases op with
  | resolve n => exact locFree_preserved r.toServiceRepository n hf
  | resolveSecure n =>
      rcases secure_cases r n with ⟨ia, hc, he⟩ | ⟨hc, he⟩
      · show LocFree (r.create_secure_service n).2.1.toServiceRepository
        rw [he]; exact hf
      · show LocFree (r.create_secure_service n).2.1.toServiceRepository
        rw [he]; exact locFree_preserved r.toServiceRepository n hf

/-- One step preserves stability of any plain handle. -/
theorem stepState_stable (r : SecureServiceRepository) (op : SecOp)
    (name : String) (h : Handle) (hs : Stable r.toServiceRepository name h) :
    Stable (stepState r op).toServiceRepository name h := by
  cases op with
  | resolve n => exact stable_preserved r.toServiceRepository name n h hs
  | resolveSecure n =>
      rcases secure_cases r n with ⟨ia, hc, he⟩ | ⟨hc, he⟩
      · show Stable (r.create_secure_service n).2.1.toServiceRepository name h
        rw [he]; exact hs
      · show Stable (r.create_secure_service n).2.1.toServiceRepository name h
        rw [he]; exact stable_preserved r.toServiceRepository name n h hs

/-- One step preserves a cached-adaptor binding. -/
theorem stepState_secStable (r : SecureServiceRepository) (op : SecOp)
    (name : String) (ia : Nat × SecureServiceAdaptor)
    (hc : dictGet name r.cache_secured = some ia) :
    dictGet name (stepState r op).cache_secured = some ia := by
  cases op with
  | resolve n => exact hc
  | resolveSecure n =>
      rcases secure_cases r n with ⟨ia2, hc2, he⟩ | ⟨hc2, he⟩
      · show dictGet name (r.create_secure_service n).2.1.cache_secured = some ia
        rw [he]; exact hc
      · show dictGet name (r.create_secure_service n).2.1.cache_secured = some ia
        rw [he]
        have hne : name ≠ n := by
          intro heq
          subst heq
          rw [hc] at hc2
          exact Option.noConfusion hc2
        show dictGet name (dictSet n _ r.cache_secured) = some ia
        rw [dictGet_dictSet_ne name n _ r.cache_secured hne]
        exact hc

/-- One step preserves the full invariant. -/
theorem stepState_sinv (r : SecureServiceRepository) (op : SecOp)
    (hI : SInv r) : SInv (stepState r op) := by
  obtain ⟨hf, hw⟩ := hI
  refine ⟨stepState_locFree r op hf, ?_⟩
  cases op with
  | resolve n =>
      intro name i a hc
      exact stable_preserved r.toServiceRepository name n a.wrapped (hw name i a hc)
  | resolveSecure n =>
      rcases secure_cases r n with ⟨ia2, hc2, he⟩ | ⟨hc2, he⟩
      · intro name i a hc
        revert hc
        show dictGet name (r.create_secure_service n).2.1.cache_secured = _ →
          Stable (r.create_secure_service n).2.1.toServiceRepository name a.wrapped
        rw [he]
        exact hw name i a
      · intro name i a hc
        revert hc
        show dictGet name (r.create_secure_service n).2.1.cache_secured = _ →
          Stable (r.create_secure_service n).2.1.toServiceRepository name a.wrapped
        rw [he]
        by_cases hne : name = n
        · subst hne
          rw [dictGet_dictSet_self name _ r.cache_secured]
          intro hc
          have : a = SecureServiceAdaptor.init
              (r.toServiceRepository.create_service name).1
              r.secure_provider r.token_expiration_s := by
            have hpair := (Option.some.injEq _ _).mp hc
            exact (congrArg Prod.snd hpair).symm
          rw [this]
          exact stable_post r.toServiceRepository name
        · rw [dictGet_dictSet_ne name n _ r.cache_secured hne]
          intro hc
          exact stable_preserved r.toServiceRepository name n a.wrapped
            (hw name i a hc)

/-- A whole run preserves the invariant. -/
theorem runSecOps_sinv (ops : List SecOp) :
    ∀ r : SecureServiceRepository, SInv r → SInv (runSecOps r ops).1 := by
  induction ops with
  | nil => intro r hI; exact hI
  | cons op ops ih => intro r hI; exact ih (stepState r op) (stepState_sinv r op hI)

/-- A whole run preserves stability of any plain handle. -/
theorem runSecOps_stable (ops : List SecOp) (name : String) (h : Handle) :
    ∀ r : SecureServiceRepository, Stable r.toServiceRepository name h →
      Stable (runSecOps r ops).1.toServiceRepository name h := by
  induction ops with
  | nil => intro r hs; exact hs
  | cons op ops ih =>
      intro r hs
      exact ih (stepState r op) (stepState_stable r op name h hs)

/-- A whole run preserves a cached-adaptor binding. -/
theorem runSecOps_secStable (ops : List SecOp) (name : String)
    (ia : Nat × SecureServiceAdaptor) :
    ∀ r : SecureServiceRepository, dictGet name r.cache_secured = some ia →
      dictGet name (runSecOps r ops).1.cache_secured = some ia := by
  induction ops with
  | nil => intro r hc; exact hc
  | cons op ops ih =>
      intro r hc
      exact ih (stepState r op) (stepState_secStable r op name ia hc)

/-- Once an adaptor is cached for a name, every later secure resolution of
that name in a run logs exactly that adaptor. -/
theorem runSecOps_secLog (ops : List SecOp) (name : String)
    (ia : Nat × SecureServiceAdaptor) :
    ∀ r : SecureServiceRepository, dictGet name r.cache_secured = some ia →
      ∀ i a, (SecOp.resolveSecure name, SecRes.adaptor i a) ∈ (runSecOps r ops).2 →
        (i, a) = ia := by
  induction ops with
  | nil => intro r _ i a hmem; simp [runSecOps] at hmem
  | cons op ops ih =>
      intro r hc i a hmem
      simp only [runSecOps, List.mem_cons] at hmem
      cases hmem with
      | inl hhead =>
          obtain ⟨j, b⟩ := ia
          have hop : SecOp.resolveSecure name = op := congrArg Prod.fst hhead
          have hres : SecRes.adaptor i a = stepRes r op := congrArg Prod.snd hhead
          cases op with
          | resolve n => exact SecOp.noConfusion hop
          | resolveSecure n =>
              have hn : name = n := by injection hop
              subst hn
              have hstep : stepRes r (SecOp.resolveSecure name) =
                  SecRes.adaptor j b := by
                simp only [stepRes, secure_det r name (j, b) hc]
              rw [hstep] at hres
              injection hres with h1 h2
              rw [h1, h2]
      | inr htail =>
          exact ih (stepState r op) (stepState_secStable r op name ia hc) i a htail

/-- Once a handle is stable in the plain part, every later plain resolution of
that name in a mixed run logs exactly that handle. -/
theorem runSecOps_resLog (ops : List SecOp) (name : String) (h : Handle) :
    ∀ r : SecureServiceRepository, LocFree r.toServiceRepository →
      Stable r.toServiceRepository name h →
      ∀ h2, (SecOp.resolve name, SecRes.handle h2) ∈ (runSecOps r ops).2 →
        h2 = h := by
  induction ops with
  | nil => intro r _ _ h2 hmem; simp [runSecOps] at hmem
  | cons op ops ih =>
      intro r hf hs h2 hmem
      simp only [runSecOps, List.mem_cons] at hmem
      cases hmem with
      | inl hhead =>
          have hop : SecOp.resolve name = op := congrArg Prod.fst hhead
          have hres : SecRes.handle h2 = stepRes r op := congrArg Prod.snd hhead
          cases op with
          | resolveSecure n => exact SecOp.noConfusion hop
          | resolve n =>
              have hn : name = n := by injection hop
              subst hn
              have hstep : stepRes r (SecOp.resolve name) = SecRes.handle h := by
                simp only [stepRes,
                  create_service_det r.toServiceRepository name h hf hs]
              rw [hstep] at hres
              injection hres
      | inr htail =>
          exact ih (stepState r op) (stepState_locFree r op hf)
            (stepState_stable r op name h hs) h2 htail

/-- Main secure-cache lemma: from any state satisfying the invariant, over any
lifetime of mixed operations, all secure resolutions of a fixed name return
the one adaptor instance; that adaptor wraps exactly the handle a plain
resolution of the name returns at the end of the lifetime; and every plain
resolution of the name logged in the lifetime returns that same handle. -/
theorem secRun_spec (name : String) (ops : List SecOp) :
    ∀ r : SecureServiceRepository, SInv r →
      (∀ i1 a1,
          (SecOp.resolveSecure name, SecRes.adaptor i1 a1) ∈ (runSecOps r ops).2 →
       ∀ i2 a2,
          (SecOp.resolveSecure name, SecRes.adaptor i2 a2) ∈ (runSecOps r ops).2 →
            i1 = i2 ∧ a1 = a2) ∧
      (∀ i a,
          (SecOp.resolveSecure name, SecRes.adaptor i a) ∈ (runSecOps r ops).2 →
            a.wrapped =
              ((runSecOps r ops).1.toServiceRepository.create_service name).1) ∧
      (∀ h, (SecOp.resolve name, SecRes.handle h) ∈ (runSecOps r ops).2 →
            h = ((runSecOps r ops).1.toServiceRepository.create_service name).1) := by
  induction ops with
  | nil =>
      intro r _
      refine ⟨?_, ?_, ?_⟩
      · intro i1 a1 hmem; simp [runSecOps] at hmem
      · intro i a hmem; simp [runSecOps] at hmem
      · intro h hmem; simp [runSecOps] at hmem
  | cons op ops ih =>
      intro r hI
      have hI1 : SInv (stepState r op) := stepState_sinv r op hI
      obtain ⟨ih1, ih2, ih3⟩ := ih (stepState r op) hI1
      have hff : LocFree (runSecOps (stepState r op) ops).1.toServiceRepository :=
        (runSecOps_sinv ops (stepState r op) hI1).1
      by_cases hopn : op = SecOp.resolveSecure name
      · subst hopn
        have hpost : dictGet name
            (stepState r (SecOp.resolveSecure name)).cache_secured =
              some (r.create_secure_service name).1 := secure_post r name
        have hsecLog := runSecOps_secLog ops name (r.create_secure_service name).1
          (stepState r (SecOp.resolveSecure name)) hpost
        have hstepres : stepRes r (SecOp.resolveSecure name) =
            SecRes.adaptor (r.create_secure_service name).1.1
              (r.create_secure_service name).1.2 := by
          simp only [stepRes]
        have hall : ∀ i a,
            (SecOp.resolveSecure name, SecRes.adaptor i a) ∈
              (runSecOps r (SecOp.resolveSecure name :: ops)).2 →
            (i, a) = (r.create_secure_service name).1 := by
          intro i a hmem
          simp only [runSecOps, List.mem_cons] at hmem
          cases hmem with
          | inl hhead =>
              have hres : SecRes.adaptor i a =
                  stepRes r (SecOp.resolveSecure name) := congrArg Prod.snd hhead
              rw [hstepres] at hres
              injection hres with h1 h2
              rw [h1, h2]
          | inr htail => exact hsecLog i a htail
        have hwrap : (r.create_secure_service name).1.2.wrapped =
            ((runSecOps r (SecOp.resolveSecure name :: ops)).1.toServiceRepository.create_service
              name).1 := by
          have hw1 : Stable (stepState r (SecOp.resolveSecure name)).toServiceRepository
              name (r.create_secure_service name).1.2.wrapped :=
            hI1.2 name (r.create_secure_service name).1.1
              (r.create_secure_service name).1.2 hpost
          have hw2 := runSecOps_stable ops name
            (r.create_secure_service name).1.2.wrapped
            (stepState r (SecOp.resolveSecure name)) hw1
          have hdet := create_service_det
            (runSecOps (stepState r (SecOp.resolveSecure name)) ops).1.toServiceRepository
            name (r.create_secure_service name).1.2.wrapped hff hw2
          show (r.create_secure_service name).1.2.wrapped =
            ((runSecOps (stepState r (SecOp.resolveSecure name)) ops).1.toServiceRepository.create_service
              name).1
          rw [hdet]
        refine ⟨?_, ?_, ?_⟩
        · intro i1 a1 hm1 i2 a2 hm2
          have e1 := hall i1 a1 hm1
          have e2 := hall i2 a2 hm2
          rw [← e2] at e1
          exact ⟨congrArg Prod.fst e1, congrArg Prod.snd e1⟩
        · intro i a hmem
          have e := hall i a hmem
          have : a = (r.create_secure_service name).1.2 := congrArg Prod.snd e
          rw [this]
          exact hwrap
        · intro h hmem
          simp only [runSecOps, List.mem_cons] at hmem
          cases hmem with
          | inl hhead =>
              exact SecOp.noConfusion (congrArg Prod.fst hhead)
          | inr htail =>
              have := ih3 h htail
              rw [this]
              show ((runSecOps (stepState r (SecOp.resolveSecure name)) ops).1.toServiceRepository.create_service
                  name).1 =
                ((runSecOps r (SecOp.resolveSecure name :: ops)).1.toServiceRepository.create_service
                  name).1
              rfl
      · refine ⟨?_, ?_, ?_⟩
        · intro i1 a1 hm1 i2 a2 hm2
          simp only [runSecOps, List.mem_cons] at hm1 hm2
          cases hm1 with
          | inl hhead => exact absurd (congrArg Prod.fst hhead).symm hopn
          | inr ht1 =>
              cases hm2 with
              | inl hhead => exact absurd (congrArg Prod.fst hhead).symm hopn
              | inr ht2 => exact ih1 i1 a1 ht1 i2 a2 ht2
        · intro i a hmem
          simp only [runSecOps, List.mem_cons] at hmem
          cases hmem with
          | inl hhead => exact absurd (congrArg Prod.fst hhead).symm hopn
          | inr htail =>
              have := ih2 i a htail
              rw [this]
              rfl
        · intro h hmem
          simp only [runSecOps, List.mem_cons] at hmem
          cases hmem with
          | inl hhead =>
              have hop : SecOp.resolve name = op := congrArg Prod.fst hhead
              have hres : SecRes.handle h = stepRes r op := congrArg Prod.snd hhead
              cases op with
              | resolveSecure n => exact SecOp.noConfusion hop
              | resolve n =>
                  have hn : name = n := by injection hop
                  subst hn
                  have hh : h = (r.toServiceRepository.create_service name).1 := by
                    have : stepRes r (SecOp.resolve name) =
                        SecRes.handle (r.toServiceRepository.create_service name).1 := by
                      simp only [stepRes]
                    rw [this] at hres
                    injection hres
                  subst hh
                  have hs1 : Stable (stepState r (SecOp.resolve name)).toServiceRepository
                      name (r.toServiceRepository.create_service name).1 :=
                    stable_post r.toServiceRepository name
                  have hs2 := runSecOps_stable ops name
                    (r.toServiceRepository.create_service name).1
                    (stepState r (SecOp.resolve name)) hs1
                  have hdet := create_service_det
                    (runSecOps (stepState r (SecOp.resolve name)) ops).1.toServiceRepository
                    name (r.toServiceRepository.create_service name).1 hff hs2
                  show (r.toServiceRepository.create_service name).1 =
                    ((runSecOps (stepState r (SecOp.resolve name)) ops).1.toServiceRepository.create_service
                      name).1
                  rw [hdet]
          | inr htail =>
              have := ih3 h htail
              rw [this]
              rfl

/-- The invariant holds at construction time. -/
theorem sinv_init (eps : Endpoints) (mod : String) (T : Nat)
    (cid csec : String) :
    SInv (SecureServiceRepository.init eps mod T cid csec) :=
  ⟨rfl, fun _ i a hc => Option.noConfusion hc⟩

/-- C6: for every `SecureServiceCache` instance and every service name, over
any lifetime of mixed plain and secure resolutions, all secure resolutions of
the name return the one `SecureAdaptor` instance; that adaptor wraps exactly
the handle instance a plain resolution of the same name returns (both the ones
logged in the lifetime and the one the instance would return at the end). -/
theorem claim_C6 (eps : Endpoints) (mod : String) (T : Nat)
    (cid csec : String) (ops : List SecOp) (name : String) :
    (∀ i1 a1,
        (SecOp.resolveSecure name, SecRes.adaptor i1 a1) ∈
          (runSecOps (SecureServiceRepository.init eps mod T cid csec) ops).2 →
     ∀ i2 a2,
        (SecOp.resolveSecure name, SecRes.adaptor i2 a2) ∈
          (runSecOps (SecureServiceRepository.init eps mod T cid csec) ops).2 →
          i1 = i2 ∧ a1 = a2) ∧
    (∀ i a,
        (SecOp.resolveSecure name, SecRes.adaptor i a) ∈
          (runSecOps (SecureServiceRepository.init eps mod T cid csec) ops).2 →
          a.wrapped =
            ((runSecOps (SecureServiceRepository.init eps mod T cid csec)
                ops).1.toServiceRepository.create_service name).1) ∧
    (∀ h, (SecOp.resolve name, SecRes.handle h) ∈
          (runSecOps (SecureServiceRepository.init eps mod T cid csec) ops).2 →
          h = ((runSecOps (SecureServiceRepository.init eps mod T cid csec)
                ops).1.toServiceRepository.create_service name).1) :=
  secRun_spec name ops (SecureServiceRepository.init eps mod T cid csec)
    (sinv_init eps mod T cid csec)

/-- C6, instantiated: a concrete lifetime interleaving secure and plain
resolutions of the same name. -/
theorem claim_C6_witness :
    (∀ i1 a1,
        (SecOp.resolveSecure "echo", SecRes.adaptor i1 a1) ∈
          (runSecOps (SecureServiceRepository.init LOCATOR_DEFAULT_ENDPOINTS
              "TVM" 10 "id" "secret")
            [SecOp.resolveSecure "echo", SecOp.resolve "echo",
             SecOp.resolveSecure "echo"]).2 →
     ∀ i2 a2,
        (SecOp.resolveSecure "echo", SecRes.adaptor i2 a2) ∈
          (runSecOps (SecureServiceRepository.init LOCATOR_DEFAULT_ENDPOINTS
              "TVM" 10 "id" "secret")
            [SecOp.resolveSecure "echo", SecOp.resolve "echo",
             SecOp.resolveSecure "echo"]).2 →
          i1 = i2 ∧ a1 = a2) ∧
    (∀ i a,
        (SecOp.resolveSecure "echo", SecRes.adaptor i a) ∈
          (runSecOps (SecureServiceRepository.init LOCATOR_DEFAULT_ENDPOINTS
              "TVM" 10 "id" "secret")
            [SecOp.resolveSecure "echo", SecOp.resolve "echo",
             SecOp.resolveSecure "echo"]).2 →
          a.wrapped =
            ((runSecOps (SecureServiceRepository.init LOCATOR_DEFAULT_ENDPOINTS
                "TVM" 10 "id" "secret")
              [SecOp.resolveSecure "echo", SecOp.resolve "echo",
               SecOp.resolveSecure "echo"]).1.toServiceRepository.create_service
              "echo").1) ∧
    (∀ h, (SecOp.resolve "echo", SecRes.handle h) ∈
          (runSecOps (SecureServiceRepository.init LOCATOR_DEFAULT_ENDPOINTS
              "TVM" 10 "id" "secret")
            [SecOp.resolveSecure "echo", SecOp.resolve "echo",
             SecOp.resolveSecure "echo"]).2 →
          h = ((runSecOps (SecureServiceRepository.init LOCATOR_DEFAULT_ENDPOINTS
                "TVM" 10 "id" "secret")
              [SecOp.resolveSecure "echo", SecOp.resolve "echo",
               SecOp.resolveSecure "echo"]).1.toServiceRepository.create_service
              "echo").1) :=
  claim_C6 LOCATOR_DEFAULT_ENDPOINTS "TVM" 10 "id" "secret"
    [SecOp.resolveSecure "echo", SecOp.resolve "echo", SecOp.resolveSecure "echo"]
    "echo"

end CocaineSec
